import Mathlib

/-!
A shallow embedding of the Glue transformer job
(`src/glue_job_transformer/transformer/transformer.py`) and proofs about it.

The transformer reads raw lottery `.txt` files, parses each into one draw
record ("sorteo") plus a list of prize records ("premios"), normalizes both
to a fixed Silver schema, and uploads parquet outputs.  The parser module
(`parser.parser`) and the storage helpers (`extractor.s3_utils`) are external
collaborators; their interfaces are modelled from the specification, while
everything in `transform` itself is translated from the source.
-/

namespace Transformer

/-- Raw header record, the output of `process_header`.
Modelled from the spec: `parser.parser.process_header` is not in the sources;
per §4.2 it returns a single flat record with fixed named fields
(draw number, two dates, three prize numbers, a raw "reintegros" string),
any field not found being left absent (here: `none`), to be defaulted
downstream. -/
structure HeaderRec where
  numero_sorteo : Option String
  fecha_sorteo : Option String
  fecha_caducidad : Option String
  primer_premio : Option String
  segundo_premio : Option String
  tercer_premio : Option String
  reintegros : Option String
  deriving Repr, DecidableEq

/-- Raw prize record, one element of the output of `process_body`.
Modelled from the spec: `parser.parser.process_body` is not in the sources;
per §4.3 each recognized prize line yields raw text fields
(ticket number, letters, amount, vendor/location free text). -/
structure RawPremio where
  numero_premiado : Option String
  letras : Option String
  monto : Option String
  vendido_por : Option String
  deriving Repr, DecidableEq

/-- The parse result for one downloaded file: one header record and the
list of body prize records (`split_header_body` + `process_header` +
`process_body` in the source). -/
structure ParsedFile where
  header : HeaderRec
  premios : List RawPremio
  deriving Repr, DecidableEq

/-- Errors a single file's processing can raise.  `invalidFecha` is the
`ValueError` raised at transformer.py:208 when every `fecha_sorteo` is NaT;
`castError` is pandas' error when `astype("Int64")` meets a non-integer
float; `storage` and `parseErr` stand for collaborator failures during
download/read/parse. -/
inductive TErr where
  | storage (key : String)
  | parseErr (key : String)
  | castError
  | invalidFecha (n : Nat)
  deriving Repr, DecidableEq

deriving instance DecidableEq for Except

/-- Digits of a decimal string to a natural number (as Python `int` does on
a digit-only string). -/
def digitsToNat (l : List Char) : Nat :=
  l.foldl (fun a c => a * 10 + (c.toNat - 48)) 0

/-- Strip leading and trailing whitespace. -/
def trimWs (l : List Char) : List Char :=
  ((l.dropWhile Char.isWhitespace).reverse.dropWhile Char.isWhitespace).reverse

/-- Left-to-right non-overlapping split on a separator, Python `str.split`
style, fuelled by the input length so the recursion stays structural. -/
def splitSepAux (sep : List Char) : Nat → List Char → List Char → List (List Char)
  | 0, l, acc => [acc.reverse ++ l]
  | _ + 1, [], acc => [acc.reverse]
  | fuel + 1, c :: rest, acc =>
    if (c :: rest).take sep.length = sep then
      acc.reverse :: splitSepAux sep fuel ((c :: rest).drop sep.length) []
    else
      splitSepAux sep fuel rest (c :: acc)

/-- `s.split(sep)` as in Python (also what pandas `.str.split` does
elementwise): always at least one part, empty parts kept. -/
def splitStr (sep s : String) : List String :=
  (splitSepAux sep.data s.data.length s.data []).map (fun cs => ⟨cs⟩)

/-- ASCII upper-casing, the effect of `.str.upper()` on the data at hand. -/
def upperStr (s : String) : String :=
  ⟨s.data.map Char.toUpper⟩

/-- A parsed decimal number, `num / 10 ^ exp` — the exact value
`pd.to_numeric` produces on a decimal literal (floating-point rounding is
not modelled; no property here depends on it). -/
structure Dec where
  num : Int
  exp : Nat
  deriving Repr, DecidableEq

/-- The float 0.0, the transformer's monetary default. -/
def decZero : Dec := ⟨0, 0⟩

/-- Whether the parsed number is integral (so `astype("Int64")` accepts it). -/
def Dec.isInt (d : Dec) : Bool :=
  d.num % ((10 : Int) ^ d.exp) = 0

/-- Its integer value, meaningful when `isInt`. -/
def Dec.toInt (d : Dec) : Int :=
  d.num / ((10 : Int) ^ d.exp)

/-- Elementwise model of `pd.to_numeric(..., errors="coerce")` on a string
cell: optional surrounding whitespace, optional sign, decimal digits with an
optional fractional part.  Unparseable text gives `none` (NaN).  (Exponent
notation is not modelled; no property here depends on it.) -/
def parseNumeric (s : String) : Option Dec :=
  let cs := trimWs s.data
  let (sgn, cs) : Int × List Char :=
    match cs with
    | '-' :: rest => (-1, rest)
    | '+' :: rest => (1, rest)
    | rest => (1, rest)
  let intPart := cs.takeWhile Char.isDigit
  let rest := cs.drop intPart.length
  match rest with
  | [] =>
    if intPart.isEmpty then none
    else some ⟨sgn * (digitsToNat intPart : Int), 0⟩
  | '.' :: tail =>
    let fracPart := tail.takeWhile Char.isDigit
    let rest2 := tail.drop fracPart.length
    if rest2.isEmpty && !(intPart.isEmpty && fracPart.isEmpty) then
      some ⟨sgn * (digitsToNat (intPart ++ fracPart) : Int), fracPart.length⟩
    else none
  | _ => none

/-- Elementwise model of `_to_int64` without a default (transformer.py:52):
`pd.to_numeric(errors="coerce").astype("Int64")`.  A missing or unparseable
cell becomes NA (`none`); a numeric but non-integer value makes
`astype("Int64")` raise. -/
def toInt64E (v : Option String) : Except TErr (Option Int) :=
  match v with
  | none => .ok none
  | some s =>
    match parseNumeric s with
    | none => .ok none
    | some q => if q.isInt then .ok (some q.toInt) else .error .castError

/-- Elementwise model of `_to_int64(..., default=d)`: NA is replaced by the
default and the column cast to plain int64. -/
def toInt64D (v : Option String) (d : Int) : Except TErr Int :=
  (toInt64E v).map (fun o => o.getD d)

/-- Elementwise model of `_to_float64(..., default=d)` (transformer.py:63):
`pd.to_numeric(errors="coerce").fillna(default)`. -/
def toFloat64 (v : Option String) (d : Dec) : Dec :=
  match v with
  | none => d
  | some s => (parseNumeric s).getD d

/-- A calendar date as parsed by `pd.to_datetime(format="%d/%m/%Y")`. -/
structure SDate where
  day : Nat
  month : Nat
  year : Nat
  deriving Repr, DecidableEq

def isLeap (y : Nat) : Bool :=
  (y % 4 == 0 && y % 100 != 0) || y % 400 == 0

def daysInMonth (m y : Nat) : Nat :=
  if m = 2 then (if isLeap y then 29 else 28)
  else if m = 4 ∨ m = 6 ∨ m = 9 ∨ m = 11 then 30
  else 31

def allDigits (l : List Char) : Bool :=
  !l.isEmpty && l.all Char.isDigit

/-- Strict `DD/MM/YYYY` parse, the elementwise model of
`pd.to_datetime(..., format="%d/%m/%Y", errors="coerce")`
(transformer.py:195): exactly three `/`-separated digit groups, a valid
calendar date; anything else coerces to NaT (`none`). -/
def parseDateDDMMYYYY (s : String) : Option SDate :=
  match splitStr "/" s with
  | [d, m, y] =>
    if allDigits d.data && allDigits m.data && allDigits y.data
        && d.length ≤ 2 && m.length ≤ 2 && y.length ≤ 4 then
      let dn := digitsToNat d.data
      let mn := digitsToNat m.data
      let yn := digitsToNat y.data
      if 1 ≤ mn && mn ≤ 12 && 1 ≤ dn && dn ≤ daysInMonth mn yn then
        some ⟨dn, mn, yn⟩
      else none
    else none
  | _ => none

/-- Date coercion of an optional cell (a missing cell is NaT). -/
def toDate (v : Option String) : Option SDate :=
  v.bind parseDateDDMMYYYY

/-- A premios row between parsing and type coercion: the seven columns kept
at transformer.py:141, all still raw optional text. -/
structure PremioMid where
  numero_sorteo : Option String
  numero_premiado : Option String
  letras : Option String
  monto : Option String
  vendedor : Option String
  ciudad : Option String
  departamento : Option String
  deriving Repr, DecidableEq

/-- Vendor-field decomposition of one row.
Modelled from the spec: `parser.parser.split_vendido_por_column` is not in
the sources; per §4.4 it decomposes the free text of form
"vendor - city - department" by delimiter, missing segments yielding null,
never an exception.  The `numero_sorteo` column was attached beforehand from
the header (transformer.py:123). -/
def splitVendidoPor (ns : Option String) (r : RawPremio) : PremioMid :=
  let parts := (r.vendido_por.map (fun s => splitStr " - " s)).getD []
  { numero_sorteo := ns
    numero_premiado := r.numero_premiado
    letras := r.letras
    monto := r.monto
    vendedor := parts.get? 0
    ciudad := parts.get? 1
    departamento := parts.get? 2 }

/-- The capital-alias override (transformer.py:137): when the null-safe
upper-cased city equals "DE ESTA CAPITAL", department is set to
"GUATEMALA". -/
def capitalOverride (p : PremioMid) : PremioMid :=
  if upperStr (p.ciudad.getD "") = "DE ESTA CAPITAL" then
    { p with departamento := some "GUATEMALA" }
  else p

/-- Elementwise model of `premios_df.replace({"N/A": None, "n/a": None,
"": None})` (transformer.py:148): an exact match of a placeholder becomes
null; every other cell is untouched. -/
def replaceSent (v : Option String) : Option String :=
  match v with
  | some s => if s = "N/A" ∨ s = "n/a" ∨ s = "" then none else some s
  | none => none

/-- `replace` applies to every column of the premios frame. -/
def replaceSentRow (p : PremioMid) : PremioMid :=
  { numero_sorteo := replaceSent p.numero_sorteo
    numero_premiado := replaceSent p.numero_premiado
    letras := replaceSent p.letras
    monto := replaceSent p.monto
    vendedor := replaceSent p.vendedor
    ciudad := replaceSent p.ciudad
    departamento := replaceSent p.departamento }

/-- A premios row after Silver schema enforcement (transformer.py:150-157).
`_to_string` keeps nulls, so text fields stay `Option String`. -/
structure PremioOut where
  numero_sorteo : Int
  numero_premiado : Option Int
  monto : Dec
  letras : Option String
  vendedor : Option String
  ciudad : Option String
  departamento : Option String
  deriving Repr, DecidableEq

/-- Type coercion of one premios row (transformer.py:150-157):
`numero_sorteo` to int64 with default 0, `numero_premiado` to nullable
Int64, `monto` to float64 with default 0.0, the rest to string dtype. -/
def coercePremio (p : PremioMid) : Except TErr PremioOut :=
  match toInt64D p.numero_sorteo 0 with
  | .error e => .error e
  | .ok ns =>
    match toInt64E p.numero_premiado with
    | .error e => .error e
    | .ok np =>
      .ok { numero_sorteo := ns
            numero_premiado := np
            monto := toFloat64 p.monto decZero
            letras := p.letras
            vendedor := p.vendedor
            ciudad := p.ciudad
            departamento := p.departamento }

/-- The whole premios pipeline for one raw row, in source order:
attach `numero_sorteo` + vendor split (py:123,133), capital override
(py:137), column selection (py:141), sentinel replacement (py:148), type
coercion (py:150-157). -/
def normalizePremio (ns : Option String) (r : RawPremio) : Except TErr PremioOut :=
  coercePremio (replaceSentRow (capitalOverride (splitVendidoPor ns r)))

/-- The sorteos row after Silver schema enforcement
(transformer.py:163-204). -/
structure SorteoOut where
  numero_sorteo : Int
  primer_premio : Option Int
  segundo_premio : Option Int
  tercer_premio : Option Int
  reintegro_primer_premio : Option Int
  reintegro_segundo_premio : Option Int
  reintegro_tercer_premio : Option Int
  fecha_sorteo : Option SDate
  fecha_caducidad : Option SDate
  deriving Repr, DecidableEq

/-- The reintegros split (transformer.py:163-178): the raw text is split on
",", the first three slots kept, missing slots padded with null; an absent
field (absent column, or NA cell) yields three nulls. -/
def splitReintegros (r : Option String) : Option String × Option String × Option String :=
  match r with
  | none => (none, none, none)
  | some s =>
    let parts := splitStr "," s
    (parts.get? 0, parts.get? 1, parts.get? 2)

/-- Sorteos schema enforcement in source order (transformer.py:163-204):
reintegros split and nullable-Int64 coercion, then the core numeric
columns, then the strict date coercions. -/
def coerceSorteo (h : HeaderRec) : Except TErr SorteoOut :=
  match toInt64E (splitReintegros h.reintegros).1 with
  | .error e => .error e
  | .ok rp =>
    match toInt64E (splitReintegros h.reintegros).2.1 with
    | .error e => .error e
    | .ok rs =>
      match toInt64E (splitReintegros h.reintegros).2.2 with
      | .error e => .error e
      | .ok rt =>
        match toInt64D h.numero_sorteo 0 with
        | .error e => .error e
        | .ok ns =>
          match toInt64E h.primer_premio with
          | .error e => .error e
          | .ok pp =>
            match toInt64E h.segundo_premio with
            | .error e => .error e
            | .ok sp =>
              match toInt64E h.tercer_premio with
              | .error e => .error e
              | .ok tp =>
                .ok { numero_sorteo := ns
                      primer_premio := pp
                      segundo_premio := sp
                      tercer_premio := tp
                      reintegro_primer_premio := rp
                      reintegro_segundo_premio := rs
                      reintegro_tercer_premio := rt
                      fecha_sorteo := toDate h.fecha_sorteo
                      fecha_caducidad := toDate h.fecha_caducidad }

/-- The outcome of one file's pure transformation: the sorteos record, the
premios records, and the derived partition year. -/
structure FileOut where
  sorteo : SorteoOut
  premios : List PremioOut
  year : Nat
  deriving Repr, DecidableEq

/-- Columnwise elementwise coercion over all rows: the first failing cell's
error propagates (pandas raises; the whole file then fails). -/
def mapExcept (f : RawPremio → Except TErr PremioOut) : List RawPremio → Except TErr (List PremioOut)
  | [] => .ok []
  | a :: as =>
    match f a with
    | .error e => .error e
    | .ok b =>
      match mapExcept f as with
      | .error e => .error e
      | .ok bs => .ok (b :: bs)

/-- Pure per-file transformation (transformer.py:116-210), given the draw
number `n` extracted from the object key: premios normalization
(py:123-157), sorteos normalization (py:163-204), the all-dates-invalid
guard (py:207) and partition-year derivation (py:210).  The sorteos frame
holds exactly one row (py:119), so `isna().all()` is that row's
`fecha_sorteo` being NaT, and `iloc[0]` is that row. -/
def processFile (n : Nat) (pf : ParsedFile) : Except TErr FileOut :=
  match mapExcept (normalizePremio pf.header.numero_sorteo) pf.premios with
  | .error e => .error e
  | .ok premiosOut =>
    match coerceSorteo pf.header with
    | .error e => .error e
    | .ok sorteoOut =>
      match sorteoOut.fecha_sorteo with
      | none => .error (.invalidFecha n)
      | some d =>
        .ok { sorteo := sorteoOut, premios := premiosOut, year := d.year }

/-- One candidate position for `re.search(r"sorteo=(\d+)/", key)`: the text
must start with `sorteo=`, then a nonempty digit run, then `/` (a digit run
followed by anything but `/` cannot match, `/` not being a digit). -/
def matchSorteoAt (l : List Char) : Option Nat :=
  if l.take 7 = "sorteo=".data then
    let rest := l.drop 7
    let ds := rest.takeWhile Char.isDigit
    if !ds.isEmpty && (rest.drop ds.length).take 1 = ['/'] then
      some (digitsToNat ds)
    else none
  else none

def extractSorteoAux : List Char → Option Nat
  | [] => none
  | c :: rest =>
    match matchSorteoAt (c :: rest) with
    | some n => some n
    | none => extractSorteoAux rest

/-- `re.search(r"sorteo=(\d+)/", key)` followed by `int(match.group(1))`
(transformer.py:100,105): the leftmost occurrence of the pattern, its digit
group read as a natural number; `none` when the key has no such segment. -/
def extractSorteo (s : String) : Option Nat :=
  extractSorteoAux s.data

/-- The two datasets written per draw. -/
inductive DS where
  | sorteos
  | premios
  deriving Repr, DecidableEq

/-- The two destination buckets (transformer.py:227-241). -/
inductive Bkt where
  | simple
  | partitioned
  deriving Repr, DecidableEq

/-- Observable collaborator calls of one run, in order.  `listProcessed`
and `listFiles` are the two listings before the loop (py:88,93);
`download` is `download_file_from_s3` (py:111); `upload` is
`upload_file_to_s3` (py:227-241) and carries the destination bucket, the
full object key, the dataset, the key-extracted draw number and the
uploaded content. -/
inductive Event where
  | listProcessed
  | listFiles
  | download (key : String)
  | upload (bucket : Bkt) (key : String) (ds : DS) (n : Nat) (content : FileOut)
  deriving Repr, DecidableEq

/-- The run environment: the set of already-processed draw numbers the
initial listing returns, the raw keys the raw-files listing returns, and an
oracle for download-plus-parse of one key.
Modelled from the spec: `list_processed_sorteos_in_partitioned_bucket`,
`list_files_in_s3`, `download_file_from_s3` (extractor.s3_utils) and the
parser functions are not in the sources; per §6 the first returns the set
of draw numbers already present under the canonical output prefix, and per
§4.1/§7 download or parse of a file can fail with a per-file error.
`Env` (with `perFile`/`runFiles`/`transformRun`) describes runs in which
the store collaborator's upload calls succeed; `EnvU` below additionally
gives the upload calls spec §7's StorageError failure mode and refines this
model (`perFileU_allOk`, `runFilesU_allOk`). -/
structure Env where
  processed : List Nat
  rawFiles : List String
  fetch : String → Except TErr ParsedFile

/-- The four uploads of one successfully processed file, in source order
(transformer.py:227-241): simple-bucket sorteos and premios flat files,
then partitioned-bucket (Silver) sorteos and premios. -/
def uploadEvents (simplePfx silverPfx : String) (n : Nat) (out : FileOut) : List Event :=
  [ .upload .simple (simplePfx ++ "sorteos_" ++ toString n ++ ".parquet") .sorteos n out,
    .upload .simple (simplePfx ++ "premios_" ++ toString n ++ ".parquet") .premios n out,
    .upload .partitioned
      (silverPfx ++ "sorteos/year=" ++ toString out.year ++ "/sorteo=" ++ toString n ++ "/sorteos.parquet")
      .sorteos n out,
    .upload .partitioned
      (silverPfx ++ "premios/year=" ++ toString out.year ++ "/sorteo=" ++ toString n ++ "/premios.parquet")
      .premios n out ]

/-- One iteration of the loop (transformer.py:98-243), for runs whose
upload calls succeed (see `perFileU` for the general case): keys without a
`sorteo=<digits>/` segment and already-processed draw numbers are skipped
with no collaborator call; otherwise the file is downloaded, parsed and
transformed, and on success its four outputs uploaded.  Returns the events
and, when download/parse/transform raised, the error (uncaught in the
source: there is no try/except around the loop body). -/
def perFile (fetch : String → Except TErr ParsedFile) (processed : List Nat)
    (simplePfx silverPfx : String) (key : String) : List Event × Option TErr :=
  match extractSorteo key with
  | none => ([], none)
  | some n =>
    if n ∈ processed then ([], none)
    else
      match fetch key with
      | .error e => ([.download key], some e)
      | .ok pf =>
        match processFile n pf with
        | .error e => ([.download key], some e)
        | .ok out => (.download key :: uploadEvents simplePfx silverPfx n out, none)

/-- The file loop: files in order; an uncaught per-file error terminates
the whole run at that file. -/
def runFiles (fetch : String → Except TErr ParsedFile) (processed : List Nat)
    (simplePfx silverPfx : String) : List String → List Event × Option TErr
  | [] => ([], none)
  | k :: rest =>
    match perFile fetch processed simplePfx silverPfx k with
    | (evs, some e) => (evs, some e)
    | (evs, none) =>
      (evs ++ (runFiles fetch processed simplePfx silverPfx rest).1,
       (runFiles fetch processed simplePfx silverPfx rest).2)

/-- A whole `transform` run (transformer.py:77-243): the processed-sorteos
listing and the raw-files listing happen once, before the loop. -/
def transformRun (env : Env) (simplePfx silverPfx : String) : List Event × Option TErr :=
  let r := runFiles env.fetch env.processed simplePfx silverPfx env.rawFiles
  (Event.listProcessed :: Event.listFiles :: r.1, r.2)

/-- The draw numbers of the Silver (partitioned-bucket) uploads of dataset
`d` in a trace: what a canonical-output listing observes. -/
def silverNums (d : DS) : List Event → List Nat
  | [] => []
  | .upload .partitioned _ ds n _ :: rest =>
    if ds = d then n :: silverNums d rest else silverNums d rest
  | _ :: rest => silverNums d rest

/-- Whether a trace contains a download of `key`. -/
def hasDownload (key : String) (evs : List Event) : Bool :=
  evs.any (fun e => e = .download key)

/-- The number of processed-set listings in a trace. -/
def countListProcessed (evs : List Event) : Nat :=
  evs.countP (fun e => e = Event.listProcessed)

/-! ### The run model with a fallible upload collaborator

Per spec §7, StorageError covers upload I/O as well ("collaborator I/O
failure (download/upload/list); propagates and aborts that file's
processing"), and the source performs four separate `upload_file_to_s3`
calls (transformer.py:227-241) with no try/except, so a raise at one of
them leaves the earlier uploads done and aborts the run.  The following
definitions extend the model above with an upload outcome oracle. -/

/-- Outcome oracle for `upload_file_to_s3` (extractor.s3_utils, not under
src/).  Modelled from the spec: §6 `storeObject(localPath, container, key)`
and §7 StorageError — each call either succeeds or raises, keyed by
destination bucket and object key. -/
def UploadOracle : Type := Bkt → String → Except TErr Unit

/-- Attempt a sequence of upload events in order: each performed upload
stays in the trace; the first failing call raises, so neither it nor any
later upload happens. -/
def tryUploads (upload : UploadOracle) : List Event → List Event × Option TErr
  | [] => ([], none)
  | .upload b k d n c :: rest =>
    match upload b k with
    | .error e => ([], some e)
    | .ok _ =>
      ((Event.upload b k d n c) :: (tryUploads upload rest).1,
       (tryUploads upload rest).2)
  | e :: rest =>
    (e :: (tryUploads upload rest).1, (tryUploads upload rest).2)

/-- One loop iteration (transformer.py:98-243) with fallible uploads: as
`perFile`, but after a successful transform the four uploads are attempted
in source order and a StorageError at any of them aborts the iteration,
keeping the uploads already made. -/
def perFileU (fetch : String → Except TErr ParsedFile) (upload : UploadOracle)
    (processed : List Nat) (simplePfx silverPfx : String) (key : String) :
    List Event × Option TErr :=
  match extractSorteo key with
  | none => ([], none)
  | some n =>
    if n ∈ processed then ([], none)
    else
      match fetch key with
      | .error e => ([.download key], some e)
      | .ok pf =>
        match processFile n pf with
        | .error e => ([.download key], some e)
        | .ok out =>
          (.download key :: (tryUploads upload (uploadEvents simplePfx silverPfx n out)).1,
           (tryUploads upload (uploadEvents simplePfx silverPfx n out)).2)

/-- The file loop with fallible uploads; any uncaught per-file error —
including a StorageError from an upload call — terminates the run at that
file. -/
def runFilesU (fetch : String → Except TErr ParsedFile) (upload : UploadOracle)
    (processed : List Nat) (simplePfx silverPfx : String) :
    List String → List Event × Option TErr
  | [] => ([], none)
  | k :: rest =>
    match perFileU fetch upload processed simplePfx silverPfx k with
    | (evs, some e) => (evs, some e)
    | (evs, none) =>
      (evs ++ (runFilesU fetch upload processed simplePfx silverPfx rest).1,
       (runFilesU fetch upload processed simplePfx silverPfx rest).2)

/-- `Env` plus the upload outcome oracle. -/
structure EnvU where
  processed : List Nat
  rawFiles : List String
  fetch : String → Except TErr ParsedFile
  upload : UploadOracle

/-- A whole `transform` run with fallible uploads. -/
def transformRunU (env : EnvU) (simplePfx silverPfx : String) :
    List Event × Option TErr :=
  let r := runFilesU env.fetch env.upload env.processed simplePfx silverPfx env.rawFiles
  (Event.listProcessed :: Event.listFiles :: r.1, r.2)

/-! ### Sample data for concrete evaluations -/

def sampleHeader : HeaderRec :=
  { numero_sorteo := some "1234", fecha_sorteo := some "01/06/2024",
    fecha_caducidad := some "01/09/2024", primer_premio := some "11111",
    segundo_premio := some "22222", tercer_premio := none,
    reintegros := some "3,9" }

def samplePremio : RawPremio :=
  { numero_premiado := some "55555", letras := some "ABC",
    monto := some "100.50",
    vendido_por := some "Juan Perez - DE ESTA capital - ESCUINTLA" }

def sampleFile : ParsedFile := ⟨sampleHeader, [samplePremio]⟩

def badDateFile : ParsedFile :=
  ⟨{ sampleHeader with fecha_sorteo := some "garbage" }, [samplePremio]⟩

/-- The normalized form of `samplePremio` within `sampleFile`. -/
def samplePremioOut : PremioOut :=
  { numero_sorteo := 1234, numero_premiado := some 55555,
    monto := ⟨10050, 2⟩, letras := some "ABC",
    vendedor := some "Juan Perez", ciudad := some "DE ESTA capital",
    departamento := some "GUATEMALA" }

/-- The transformed form of `sampleFile`. -/
def sampleOut : FileOut :=
  { sorteo :=
      { numero_sorteo := 1234, primer_premio := some 11111,
        segundo_premio := some 22222, tercer_premio := none,
        reintegro_primer_premio := some 3, reintegro_segundo_premio := some 9,
        reintegro_tercer_premio := none,
        fecha_sorteo := some ⟨1, 6, 2024⟩, fecha_caducidad := some ⟨1, 9, 2024⟩ },
    premios := [samplePremioOut],
    year := 2024 }

/-- A file full of unparseable numeric text, for the default-policy
witness. -/
def badRawPremio : RawPremio :=
  { numero_premiado := some "??", letras := some "N/A",
    monto := some "12abc", vendido_por := none }

def badNumsFile : ParsedFile :=
  ⟨{ numero_sorteo := some "X9", fecha_sorteo := some "02/07/2023",
     fecha_caducidad := none, primer_premio := some "abc",
     segundo_premio := none, tercer_premio := some "1a",
     reintegros := some "x,,7" }, [badRawPremio]⟩

def badPremioOut : PremioOut :=
  { numero_sorteo := 0, numero_premiado := none, monto := decZero,
    letras := none, vendedor := none, ciudad := none, departamento := none }

def badNumsOut : FileOut :=
  { sorteo :=
      { numero_sorteo := 0, primer_premio := none, segundo_premio := none,
        tercer_premio := none, reintegro_primer_premio := none,
        reintegro_segundo_premio := none, reintegro_tercer_premio := some 7,
        fecha_sorteo := some ⟨2, 7, 2023⟩, fecha_caducidad := none },
    premios := [badPremioOut],
    year := 2023 }

def c10Fetch : String → Except TErr ParsedFile := fun _ => .ok sampleFile

def c4Env : Env :=
  { processed := [5], rawFiles := ["raw/year=2024/sorteo=5/a.txt"],
    fetch := fun _ => .ok sampleFile }

def c1Env : Env :=
  { processed := [],
    rawFiles := ["raw/year=2024/sorteo=1/a.txt", "raw/year=2024/sorteo=2/b.txt"],
    fetch := fun k =>
      if k = "raw/year=2024/sorteo=1/a.txt" then .ok badDateFile else .ok sampleFile }

def c1EnvSecondOnly : Env :=
  { processed := [], rawFiles := ["raw/year=2024/sorteo=2/b.txt"], fetch := c1Env.fetch }

def c2Env : Env :=
  { processed := [], rawFiles := ["raw/year=2024/sorteo=5/a.txt"],
    fetch := fun _ => .ok sampleFile }

def c1FetchOk : String → Except TErr ParsedFile := fun _ => .ok sampleFile

/-- An upload oracle failing exactly at draw 1's canonical premios upload —
a StorageError raised by the call at transformer.py:241. -/
def c1UploadFail : UploadOracle := fun b k =>
  if b = Bkt.partitioned ∧ k = "silver/premios/year=2024/sorteo=1/premios.parquet" then
    .error (.storage k)
  else .ok ()

/-- An upload oracle whose calls all succeed. -/
def c2UploadOk : UploadOracle := fun _ _ => .ok ()

/-! ### Inversion and preservation lemmas -/

theorem coercePremio_ok (p : PremioMid) (q : PremioOut)
    (h : coercePremio p = .ok q) :
    toInt64D p.numero_sorteo 0 = .ok q.numero_sorteo ∧
    toInt64E p.numero_premiado = .ok q.numero_premiado ∧
    q.monto = toFloat64 p.monto decZero ∧
    q.letras = p.letras ∧ q.vendedor = p.vendedor ∧
    q.ciudad = p.ciudad ∧ q.departamento = p.departamento := by
  unfold coercePremio at h
  split at h
  · cases h
  · split at h
    · cases h
    · cases h
      simp_all

theorem coerceSorteo_ok (h : HeaderRec) (s : SorteoOut)
    (hs : coerceSorteo h = .ok s) :
    toInt64E (splitReintegros h.reintegros).1 = .ok s.reintegro_primer_premio ∧
    toInt64E (splitReintegros h.reintegros).2.1 = .ok s.reintegro_segundo_premio ∧
    toInt64E (splitReintegros h.reintegros).2.2 = .ok s.reintegro_tercer_premio ∧
    toInt64D h.numero_sorteo 0 = .ok s.numero_sorteo ∧
    toInt64E h.primer_premio = .ok s.primer_premio ∧
    toInt64E h.segundo_premio = .ok s.segundo_premio ∧
    toInt64E h.tercer_premio = .ok s.tercer_premio ∧
    s.fecha_sorteo = toDate h.fecha_sorteo ∧
    s.fecha_caducidad = toDate h.fecha_caducidad := by
  unfold coerceSorteo at hs
  repeat
    split at hs
    · cases hs
  cases hs
  simp_all

theorem processFile_ok (n : Nat) (pf : ParsedFile) (out : FileOut)
    (h : processFile n pf = .ok out) :
    mapExcept (normalizePremio pf.header.numero_sorteo) pf.premios = .ok out.premios ∧
    coerceSorteo pf.header = .ok out.sorteo ∧
    ∃ d, out.sorteo.fecha_sorteo = some d ∧ out.year = d.year := by
  unfold processFile at h
  split at h
  · cases h
  · split at h
    · cases h
    · split at h
      · cases h
      · cases h
        simp_all

theorem mapExcept_ok_get (f : RawPremio → Except TErr PremioOut)
    (l : List RawPremio) (out : List PremioOut)
    (h : mapExcept f l = .ok out) :
    ∀ i a, l.get? i = some a → ∃ b, out.get? i = some b ∧ f a = .ok b := by
  induction l generalizing out with
  | nil => intro i a ha; simp at ha
  | cons x xs ih =>
    intro i a ha
    unfold mapExcept at h
    cases hfx : f x with
    | error e => rw [hfx] at h; cases h
    | ok b =>
      rw [hfx] at h
      cases hrest : mapExcept f xs with
      | error e => rw [hrest] at h; cases h
      | ok bs =>
        rw [hrest] at h
        cases h
        cases i with
        | zero =>
          simp at ha
          subst ha
          exact ⟨b, rfl, hfx⟩
        | succ j =>
          simp only [List.get?] at ha ⊢
          exact ih bs hrest j a ha

theorem mapExcept_ok_mem (f : RawPremio → Except TErr PremioOut)
    (l : List RawPremio) (out : List PremioOut)
    (h : mapExcept f l = .ok out) :
    ∀ b ∈ out, ∃ a ∈ l, f a = .ok b := by
  induction l generalizing out with
  | nil =>
    unfold mapExcept at h
    cases h
    intro b hb
    simp at hb
  | cons x xs ih =>
    unfold mapExcept at h
    cases hfx : f x with
    | error e => rw [hfx] at h; cases h
    | ok b0 =>
      rw [hfx] at h
      cases hrest : mapExcept f xs with
      | error e => rw [hrest] at h; cases h
      | ok bs =>
        rw [hrest] at h
        cases h
        intro b hb
        cases hb with
        | head => exact ⟨x, List.mem_cons_self x xs, hfx⟩
        | tail _ hb' =>
          obtain ⟨a, ha, hfa⟩ := ih bs hrest b hb'
          exact ⟨a, List.mem_cons_of_mem x ha, hfa⟩

theorem parseNumeric_placeholder :
    parseNumeric "N/A" = none ∧ parseNumeric "n/a" = none ∧ parseNumeric "" = none := by
  decide

/-- Sentinel replacement never changes the result of numeric coercion:
the three placeholders are exactly the strings it nulls, and all three are
numerically unparseable anyway. -/
theorem toInt64E_replaceSent (v : Option String) :
    toInt64E (replaceSent v) = toInt64E v := by
  cases v with
  | none => rfl
  | some s =>
    show toInt64E (if s = "N/A" ∨ s = "n/a" ∨ s = "" then none else some s) = toInt64E (some s)
    by_cases hc : s = "N/A" ∨ s = "n/a" ∨ s = ""
    · rw [if_pos hc]
      rcases hc with h | h | h <;> subst h <;> rfl
    · rw [if_neg hc]

theorem toInt64D_replaceSent (v : Option String) (d : Int) :
    toInt64D (replaceSent v) d = toInt64D v d := by
  unfold toInt64D
  rw [toInt64E_replaceSent]

/-- Sentinel replacement output is never a placeholder. -/
theorem replaceSent_not_placeholder (v : Option String) :
    replaceSent v ≠ some "N/A" ∧ replaceSent v ≠ some "n/a" ∧ replaceSent v ≠ some "" := by
  cases v with
  | none => simp [replaceSent]
  | some s =>
    show (if s = "N/A" ∨ s = "n/a" ∨ s = "" then none else some s) ≠ some "N/A" ∧
      (if s = "N/A" ∨ s = "n/a" ∨ s = "" then none else some s) ≠ some "n/a" ∧
      (if s = "N/A" ∨ s = "n/a" ∨ s = "" then none else some s) ≠ some ""
    by_cases hc : s = "N/A" ∨ s = "n/a" ∨ s = ""
    · rw [if_pos hc]
      simp
    · rw [if_neg hc]
      push_neg at hc
      simp_all

theorem silverNums_append (d : DS) (a b : List Event) :
    silverNums d (a ++ b) = silverNums d a ++ silverNums d b := by
  induction a with
  | nil => rfl
  | cons e rest ih =>
    cases e with
    | listProcessed => simpa [silverNums] using ih
    | listFiles => simpa [silverNums] using ih
    | download k => simpa [silverNums] using ih
    | upload bk k ds n c =>
      cases bk with
      | simple => simpa [silverNums] using ih
      | partitioned =>
        by_cases hds : ds = d
        · simp [silverNums, hds, ih]
        · simp [silverNums, hds, ih]

theorem silverNums_uploadEvents (d : DS) (simplePfx silverPfx : String) (n : Nat) (out : FileOut) :
    silverNums d (uploadEvents simplePfx silverPfx n out) = [n] := by
  cases d <;> rfl

/-- Each loop iteration yields one of three shapes: nothing (skip), a bare
download with an error, or a download followed by the four uploads. -/
theorem perFile_cases (fetch : String → Except TErr ParsedFile) (processed : List Nat)
    (simplePfx silverPfx : String) (key : String) :
    perFile fetch processed simplePfx silverPfx key = ([], none) ∨
    (∃ e, perFile fetch processed simplePfx silverPfx key = ([.download key], some e)) ∨
    (∃ n pf out, extractSorteo key = some n ∧ ¬ n ∈ processed ∧
      fetch key = .ok pf ∧ processFile n pf = .ok out ∧
      perFile fetch processed simplePfx silverPfx key =
        (.download key :: uploadEvents simplePfx silverPfx n out, none)) := by
  cases hx : extractSorteo key with
  | none => exact Or.inl (by simp [perFile, hx])
  | some n =>
    by_cases hp : n ∈ processed
    · exact Or.inl (by simp [perFile, hx, hp])
    · cases hf : fetch key with
      | error e => exact Or.inr (Or.inl ⟨e, by simp [perFile, hx, hp, hf]⟩)
      | ok pf =>
        cases hpr : processFile n pf with
        | error e => exact Or.inr (Or.inl ⟨e, by simp [perFile, hx, hp, hf, hpr]⟩)
        | ok out =>
          exact Or.inr (Or.inr ⟨n, pf, out, rfl, hp, rfl, hpr, by simp [perFile, hx, hp, hf, hpr]⟩)

theorem silverNums_perFile_eq (fetch : String → Except TErr ParsedFile) (processed : List Nat)
    (simplePfx silverPfx : String) (key : String) :
    silverNums .sorteos (perFile fetch processed simplePfx silverPfx key).1 =
      silverNums .premios (perFile fetch processed simplePfx silverPfx key).1 := by
  rcases perFile_cases fetch processed simplePfx silverPfx key with h | ⟨e, h⟩ | ⟨n, pf, out, _, _, _, _, h⟩ <;>
    rw [h] <;> simp [silverNums, silverNums_uploadEvents]

theorem silverNums_perFile_not_processed (fetch : String → Except TErr ParsedFile)
    (processed : List Nat) (simplePfx silverPfx : String) (key : String) (d : DS) (m : Nat)
    (hm : m ∈ silverNums d (perFile fetch processed simplePfx silverPfx key).1) :
    ¬ m ∈ processed := by
  rcases perFile_cases fetch processed simplePfx silverPfx key with h | ⟨e, h⟩ | ⟨n, pf, out, hx, hp, hf, hpr, h⟩ <;>
    rw [h] at hm
  · simp [silverNums] at hm
  · cases d <;> simp [silverNums] at hm
  · have : silverNums d (Event.download key :: uploadEvents simplePfx silverPfx n out) = [n] := by
      cases d <;> rfl
    rw [this] at hm
    simp at hm
    subst hm
    exact hp

theorem countListProcessed_perFile (fetch : String → Except TErr ParsedFile)
    (processed : List Nat) (simplePfx silverPfx : String) (key : String) :
    countListProcessed (perFile fetch processed simplePfx silverPfx key).1 = 0 := by
  rcases perFile_cases fetch processed simplePfx silverPfx key with h | ⟨e, h⟩ | ⟨n, pf, out, _, _, _, _, h⟩ <;>
    rw [h] <;> rfl

theorem countListProcessed_append (a b : List Event) :
    countListProcessed (a ++ b) = countListProcessed a + countListProcessed b := by
  unfold countListProcessed
  exact List.countP_append _ a b

/-- Unfolding equation for one loop iteration. -/
theorem runFiles_cons (fetch : String → Except TErr ParsedFile) (processed : List Nat)
    (simplePfx silverPfx : String) (k : String) (rest : List String) :
    runFiles fetch processed simplePfx silverPfx (k :: rest) =
      match (perFile fetch processed simplePfx silverPfx k).2 with
      | some e => ((perFile fetch processed simplePfx silverPfx k).1, some e)
      | none =>
        ((perFile fetch processed simplePfx silverPfx k).1 ++
          (runFiles fetch processed simplePfx silverPfx rest).1,
         (runFiles fetch processed simplePfx silverPfx rest).2) := by
  rcases hk : perFile fetch processed simplePfx silverPfx k with ⟨evs, oerr⟩
  cases oerr <;> simp [runFiles, hk]

theorem countListProcessed_runFiles (fetch : String → Except TErr ParsedFile)
    (processed : List Nat) (simplePfx silverPfx : String) (files : List String) :
    countListProcessed (runFiles fetch processed simplePfx silverPfx files).1 = 0 := by
  induction files with
  | nil => rfl
  | cons k rest ih =>
    rw [runFiles_cons]
    cases hr : (perFile fetch processed simplePfx silverPfx k).2 with
    | some e =>
      simpa using countListProcessed_perFile fetch processed simplePfx silverPfx k
    | none =>
      simp only
      rw [countListProcessed_append]
      rw [countListProcessed_perFile fetch processed simplePfx silverPfx k, ih]

theorem silverNums_runFiles_eq (fetch : String → Except TErr ParsedFile)
    (processed : List Nat) (simplePfx silverPfx : String) (files : List String) :
    silverNums .sorteos (runFiles fetch processed simplePfx silverPfx files).1 =
      silverNums .premios (runFiles fetch processed simplePfx silverPfx files).1 := by
  induction files with
  | nil => rfl
  | cons k rest ih =>
    rw [runFiles_cons]
    cases hr : (perFile fetch processed simplePfx silverPfx k).2 with
    | some e =>
      simpa using silverNums_perFile_eq fetch processed simplePfx silverPfx k
    | none =>
      simp only
      rw [silverNums_append, silverNums_append,
        silverNums_perFile_eq fetch processed simplePfx silverPfx k, ih]

theorem silverNums_runFiles_not_processed (fetch : String → Except TErr ParsedFile)
    (processed : List Nat) (simplePfx silverPfx : String) (files : List String) (d : DS) (m : Nat)
    (hm : m ∈ silverNums d (runFiles fetch processed simplePfx silverPfx files).1) :
    ¬ m ∈ processed := by
  induction files with
  | nil => simp [runFiles, silverNums] at hm
  | cons k rest ih =>
    rw [runFiles_cons] at hm
    cases hr : (perFile fetch processed simplePfx silverPfx k).2 with
    | some e =>
      rw [hr] at hm
      exact silverNums_perFile_not_processed fetch processed simplePfx silverPfx k d m hm
    | none =>
      rw [hr] at hm
      simp only at hm
      rw [silverNums_append] at hm
      rcases List.mem_append.mp hm with h | h
      · exact silverNums_perFile_not_processed fetch processed simplePfx silverPfx k d m h
      · exact ih h

theorem toInt64E_error (v : Option String) (e : TErr) (h : toInt64E v = .error e) :
    e = .castError := by
  unfold toInt64E at h
  split at h
  · cases h
  · split at h
    · cases h
    · split at h
      · cases h
      · cases h
        rfl

theorem toInt64D_error (v : Option String) (d : Int) (e : TErr) (h : toInt64D v d = .error e) :
    e = .castError := by
  unfold toInt64D at h
  cases hv : toInt64E v with
  | error e' =>
    rw [hv] at h
    cases h
    exact toInt64E_error v e hv
  | ok o => rw [hv] at h; cases h

theorem coercePremio_error (p : PremioMid) (e : TErr) (h : coercePremio p = .error e) :
    e = .castError := by
  unfold coercePremio at h
  split at h
  · next he => cases h; exact toInt64D_error _ _ _ he
  · split at h
    · next he => cases h; exact toInt64E_error _ _ he
    · cases h

theorem coerceSorteo_error (hd : HeaderRec) (e : TErr) (h : coerceSorteo hd = .error e) :
    e = .castError := by
  unfold coerceSorteo at h
  split at h
  · next he => cases h; exact toInt64E_error _ _ he
  · split at h
    · next he => cases h; exact toInt64E_error _ _ he
    · split at h
      · next he => cases h; exact toInt64E_error _ _ he
      · split at h
        · next he => cases h; exact toInt64D_error _ _ _ he
        · split at h
          · next he => cases h; exact toInt64E_error _ _ he
          · split at h
            · next he => cases h; exact toInt64E_error _ _ he
            · split at h
              · next he => cases h; exact toInt64E_error _ _ he
              · cases h

theorem mapExcept_error (f : RawPremio → Except TErr PremioOut) (l : List RawPremio) (e : TErr)
    (hf : ∀ a e', f a = .error e' → e' = .castError)
    (h : mapExcept f l = .error e) : e = .castError := by
  induction l with
  | nil => cases h
  | cons x xs ih =>
    unfold mapExcept at h
    cases hfx : f x with
    | error e' =>
      rw [hfx] at h
      cases h
      exact hf x e hfx
    | ok b =>
      rw [hfx] at h
      cases hrest : mapExcept f xs with
      | error e' =>
        rw [hrest] at h
        cases h
        exact ih hrest
      | ok bs => rw [hrest] at h; cases h

theorem normalizePremio_error (ns : Option String) (r : RawPremio) (e : TErr)
    (h : normalizePremio ns r = .error e) : e = .castError :=
  coercePremio_error _ _ h

/-- A cell whose text fails numeric parsing coerces to NA. -/
theorem toInt64E_fail (v : Option String)
    (hv : ∀ s, v = some s → parseNumeric s = none) :
    toInt64E v = .ok none := by
  cases v with
  | none => rfl
  | some s =>
    simp [toInt64E, hv s rfl]

/-- A cell whose text fails numeric parsing coerces to the default. -/
theorem toInt64D_fail (v : Option String) (d : Int)
    (hv : ∀ s, v = some s → parseNumeric s = none) :
    toInt64D v d = .ok d := by
  unfold toInt64D
  rw [toInt64E_fail v hv]
  rfl

theorem toFloat64_fail (v : Option String) (d : Dec)
    (hv : ∀ s, v = some s → parseNumeric s = none) :
    toFloat64 v d = d := by
  cases v with
  | none => rfl
  | some s =>
    simp [toFloat64, hv s rfl]

/-- Sentinel replacement preserves numeric unparseability. -/
theorem replaceSent_fail (v : Option String)
    (hv : ∀ s, v = some s → parseNumeric s = none) :
    ∀ s, replaceSent v = some s → parseNumeric s = none := by
  cases v with
  | none => intro s h; cases h
  | some t =>
    intro s h
    have h1 : replaceSent (some t) =
        (if t = "N/A" ∨ t = "n/a" ∨ t = "" then none else some t) := rfl
    by_cases hc : t = "N/A" ∨ t = "n/a" ∨ t = ""
    · rw [h1, if_pos hc] at h
      cases h
    · rw [h1, if_neg hc] at h
      cases h
      exact hv t rfl

/-- `capitalOverride` writes only the department column. -/
theorem capitalOverride_fields (p : PremioMid) :
    (capitalOverride p).numero_sorteo = p.numero_sorteo ∧
    (capitalOverride p).numero_premiado = p.numero_premiado ∧
    (capitalOverride p).letras = p.letras ∧
    (capitalOverride p).monto = p.monto ∧
    (capitalOverride p).vendedor = p.vendedor ∧
    (capitalOverride p).ciudad = p.ciudad := by
  unfold capitalOverride
  split <;> simp

/-- The events `tryUploads` keeps are an initial segment of the attempted
uploads: a failing call drops itself and everything after it. -/
theorem tryUploads_initialSegment (upload : UploadOracle) (evs : List Event) :
    (tryUploads upload evs).1 <+: evs := by
  induction evs with
  | nil => exact ⟨[], rfl⟩
  | cons e rest ih =>
    obtain ⟨t, ht⟩ := ih
    cases e with
    | upload b k d n c =>
      cases hu : upload b k with
      | error err => exact ⟨Event.upload b k d n c :: rest, by simp [tryUploads, hu]⟩
      | ok u => exact ⟨t, by simp [tryUploads, hu, ht]⟩
    | listProcessed => exact ⟨t, by simp [tryUploads, ht]⟩
    | listFiles => exact ⟨t, by simp [tryUploads, ht]⟩
    | download key2 => exact ⟨t, by simp [tryUploads, ht]⟩

theorem tryUploads_allOk (upload : UploadOracle)
    (h : ∀ b k, upload b k = .ok ()) (evs : List Event) :
    tryUploads upload evs = (evs, none) := by
  induction evs with
  | nil => rfl
  | cons e rest ih =>
    cases e with
    | upload b k d n c => simp [tryUploads, h b k, ih]
    | listProcessed => simp [tryUploads, ih]
    | listFiles => simp [tryUploads, ih]
    | download key2 => simp [tryUploads, ih]

/-- When the store collaborator's uploads succeed, the fallible model
coincides with `perFile`. -/
theorem perFileU_allOk (fetch : String → Except TErr ParsedFile) (upload : UploadOracle)
    (h : ∀ b k, upload b k = .ok ()) (processed : List Nat)
    (simplePfx silverPfx key : String) :
    perFileU fetch upload processed simplePfx silverPfx key =
      perFile fetch processed simplePfx silverPfx key := by
  cases hx : extractSorteo key with
  | none => simp [perFileU, perFile, hx]
  | some n =>
    by_cases hp : n ∈ processed
    · simp [perFileU, perFile, hx, hp]
    · cases hf : fetch key with
      | error e => simp [perFileU, perFile, hx, hp, hf]
      | ok pf =>
        cases hpr : processFile n pf with
        | error e => simp [perFileU, perFile, hx, hp, hf, hpr]
        | ok out =>
          simp [perFileU, perFile, hx, hp, hf, hpr, tryUploads_allOk upload h]

/-- Unfolding equation for one fallible-upload loop iteration. -/
theorem runFilesU_cons (fetch : String → Except TErr ParsedFile) (upload : UploadOracle)
    (processed : List Nat) (simplePfx silverPfx : String) (k : String) (rest : List String) :
    runFilesU fetch upload processed simplePfx silverPfx (k :: rest) =
      match (perFileU fetch upload processed simplePfx silverPfx k).2 with
      | some e => ((perFileU fetch upload processed simplePfx silverPfx k).1, some e)
      | none =>
        ((perFileU fetch upload processed simplePfx silverPfx k).1 ++
          (runFilesU fetch upload processed simplePfx silverPfx rest).1,
         (runFilesU fetch upload processed simplePfx silverPfx rest).2) := by
  rcases hk : perFileU fetch upload processed simplePfx silverPfx k with ⟨evs, oerr⟩
  cases oerr <;> simp [runFilesU, hk]

theorem runFilesU_allOk (fetch : String → Except TErr ParsedFile) (upload : UploadOracle)
    (h : ∀ b k, upload b k = .ok ()) (processed : List Nat)
    (simplePfx silverPfx : String) (files : List String) :
    runFilesU fetch upload processed simplePfx silverPfx files =
      runFiles fetch processed simplePfx silverPfx files := by
  induction files with
  | nil => rfl
  | cons k rest ih =>
    rw [runFilesU_cons, perFileU_allOk fetch upload h processed simplePfx silverPfx k, ih,
      runFiles_cons]

/-- The three possible shapes of a fallible-upload loop iteration: silent
skip, a download ending in an error, or a download followed by the initial
segment of the four uploads that the oracle allowed. -/
theorem perFileU_cases (fetch : String → Except TErr ParsedFile) (upload : UploadOracle)
    (processed : List Nat) (simplePfx silverPfx key : String) :
    perFileU fetch upload processed simplePfx silverPfx key = ([], none) ∨
    (∃ e, perFileU fetch upload processed simplePfx silverPfx key = ([.download key], some e)) ∨
    (∃ n pf out, extractSorteo key = some n ∧ ¬ n ∈ processed ∧
      fetch key = .ok pf ∧ processFile n pf = .ok out ∧
      perFileU fetch upload processed simplePfx silverPfx key =
        (.download key :: (tryUploads upload (uploadEvents simplePfx silverPfx n out)).1,
         (tryUploads upload (uploadEvents simplePfx silverPfx n out)).2)) := by
  cases hx : extractSorteo key with
  | none => exact Or.inl (by simp [perFileU, hx])
  | some n =>
    by_cases hp : n ∈ processed
    · exact Or.inl (by simp [perFileU, hx, hp])
    · cases hf : fetch key with
      | error e => exact Or.inr (Or.inl ⟨e, by simp [perFileU, hx, hp, hf]⟩)
      | ok pf =>
        cases hpr : processFile n pf with
        | error e => exact Or.inr (Or.inl ⟨e, by simp [perFileU, hx, hp, hf, hpr]⟩)
        | ok out =>
          exact Or.inr (Or.inr ⟨n, pf, out, rfl, hp, rfl, hpr,
            by simp [perFileU, hx, hp, hf, hpr]⟩)

theorem silverNums_transformRunU (env : EnvU) (simplePfx silverPfx : String) (d : DS) :
    silverNums d (transformRunU env simplePfx silverPfx).1 =
      silverNums d
        (runFilesU env.fetch env.upload env.processed simplePfx silverPfx env.rawFiles).1 := rfl

theorem processFile_sample : processFile 1234 sampleFile = .ok sampleOut := by
  decide

/-! ### Claims -/

/-- C3: for every processed file, if every row's `fecha_sorteo` fails the
strict DD/MM/YYYY parse (the sorteos frame has a single row, built from the
header), processing fails and produces no output; conversely, when the date
parses, the `invalidFecha` error is never raised and any successful output
derives its partition year from the first row's normalized draw date. -/
theorem claim_C3_partition_guard (n : Nat) (pf : ParsedFile) :
    (toDate pf.header.fecha_sorteo = none → ∃ e, processFile n pf = .error e) ∧
    (∀ d, toDate pf.header.fecha_sorteo = some d →
      (∀ m, processFile n pf ≠ .error (.invalidFecha m)) ∧
      (∀ out, processFile n pf = .ok out → out.year = d.year)) := by
  constructor
  · intro hnd
    cases hmap : mapExcept (normalizePremio pf.header.numero_sorteo) pf.premios with
    | error e => exact ⟨e, by simp [processFile, hmap]⟩
    | ok prem =>
      cases hcs : coerceSorteo pf.header with
      | error e => exact ⟨e, by simp [processFile, hmap, hcs]⟩
      | ok s =>
        have hfs : s.fecha_sorteo = toDate pf.header.fecha_sorteo :=
          (coerceSorteo_ok _ _ hcs).2.2.2.2.2.2.2.1
        rw [hnd] at hfs
        exact ⟨.invalidFecha n, by simp [processFile, hmap, hcs, hfs]⟩
  · intro d hd
    constructor
    · intro m hcontra
      cases hmap : mapExcept (normalizePremio pf.header.numero_sorteo) pf.premios with
      | error e =>
        have hpr : processFile n pf = .error e := by simp [processFile, hmap]
        rw [hpr] at hcontra
        have he : e = .castError :=
          mapExcept_error _ _ _ (fun a e' h => normalizePremio_error _ _ _ h) hmap
        rw [he] at hcontra
        cases hcontra
      | ok prem =>
        cases hcs : coerceSorteo pf.header with
        | error e =>
          have hpr : processFile n pf = .error e := by simp [processFile, hmap, hcs]
          rw [hpr] at hcontra
          have he : e = .castError := coerceSorteo_error _ _ hcs
          rw [he] at hcontra
          cases hcontra
        | ok s =>
          have hfs : s.fecha_sorteo = some d := by
            rw [(coerceSorteo_ok _ _ hcs).2.2.2.2.2.2.2.1, hd]
          have hpr : processFile n pf = .ok ⟨s, prem, d.year⟩ := by
            simp [processFile, hmap, hcs, hfs]
          rw [hpr] at hcontra
          cases hcontra
    · intro out hout
      obtain ⟨hmap, hcs, d', hd', hyear⟩ := processFile_ok n pf out hout
      have hfs : out.sorteo.fecha_sorteo = toDate pf.header.fecha_sorteo :=
        (coerceSorteo_ok _ _ hcs).2.2.2.2.2.2.2.1
      rw [hd, hd'] at hfs
      cases hfs
      exact hyear

/-- C3 witness: a file whose only draw date is unparseable fails. -/
theorem claim_C3_witness :
    toDate badDateFile.header.fecha_sorteo = none ∧
    ∃ e, processFile 99 badDateFile = .error e :=
  ⟨rfl, (claim_C3_partition_guard 99 badDateFile).1 rfl⟩

/-- C5: whenever the (null-safe, case-insensitive) city equals the
local-capital alias, department is forced to "GUATEMALA" by the override
that runs right after the vendor-field decomposition; neither sentinel
nulling nor final type coercion can undo it, and the property also holds
end-to-end through `normalizePremio` regardless of what the split put in
the department column. -/
theorem claim_C5_capital_override (p : PremioMid)
    (hcity : upperStr (p.ciudad.getD "") = "DE ESTA CAPITAL") :
    (capitalOverride p).departamento = some "GUATEMALA" ∧
    (∀ q, coercePremio (replaceSentRow (capitalOverride p)) = .ok q →
      q.departamento = some "GUATEMALA") ∧
    (∀ ns r q, upperStr ((splitVendidoPor ns r).ciudad.getD "") = "DE ESTA CAPITAL" →
      normalizePremio ns r = .ok q → q.departamento = some "GUATEMALA") := by
  have hmain : ∀ p' : PremioMid, upperStr (p'.ciudad.getD "") = "DE ESTA CAPITAL" →
      (capitalOverride p').departamento = some "GUATEMALA" ∧
      ∀ q, coercePremio (replaceSentRow (capitalOverride p')) = .ok q →
        q.departamento = some "GUATEMALA" := by
    intro p' hc
    have hov : (capitalOverride p').departamento = some "GUATEMALA" := by
      unfold capitalOverride
      rw [if_pos hc]
    refine ⟨hov, fun q hq => ?_⟩
    have h1 := (coercePremio_ok _ _ hq).2.2.2.2.2.2
    have h2 : (replaceSentRow (capitalOverride p')).departamento =
        replaceSent (capitalOverride p').departamento := rfl
    rw [h1, h2, hov]
    rfl
  refine ⟨(hmain p hcity).1, (hmain p hcity).2, fun ns r q hc hq => ?_⟩
  exact (hmain (splitVendidoPor ns r) hc).2 q hq

/-- C5 witness: a concrete premio sold "DE ESTA capital" ends with
department GUATEMALA. -/
theorem claim_C5_witness :
    upperStr ((splitVendidoPor (some "1234") samplePremio).ciudad.getD "") = "DE ESTA CAPITAL" ∧
    (normalizePremio (some "1234") samplePremio).map PremioOut.departamento =
      .ok (some "GUATEMALA") := by
  refine ⟨by decide, ?_⟩
  have hq : normalizePremio (some "1234") samplePremio = .ok samplePremioOut := by decide
  rw [hq]
  have := (claim_C5_capital_override (splitVendidoPor (some "1234") samplePremio)
    (by decide)).2.2 (some "1234") samplePremio samplePremioOut (by decide) hq
  simp [Except.map, this]

/-- C9: on any successfully processed file, every output premio carries the
same normalized `numero_sorteo` as the file's single sorteos record: both
sides start from the header's raw value (copied in at transformer.py:123)
and go through the same integer coercion with default 0. -/
theorem claim_C9_foreign_key (n : Nat) (pf : ParsedFile) (out : FileOut)
    (hok : processFile n pf = .ok out) :
    ∀ p ∈ out.premios, p.numero_sorteo = out.sorteo.numero_sorteo := by
  intro p hp
  obtain ⟨hmap, hcs, _⟩ := processFile_ok n pf out hok
  obtain ⟨r, _, hnp⟩ := mapExcept_ok_mem _ _ _ hmap p hp
  have hcp := (coercePremio_ok _ _ hnp).1
  have hmid : (replaceSentRow (capitalOverride (splitVendidoPor pf.header.numero_sorteo r))).numero_sorteo =
      replaceSent pf.header.numero_sorteo := by
    have h1 : (replaceSentRow (capitalOverride (splitVendidoPor pf.header.numero_sorteo r))).numero_sorteo =
        replaceSent (capitalOverride (splitVendidoPor pf.header.numero_sorteo r)).numero_sorteo := rfl
    rw [h1, (capitalOverride_fields _).1]
    rfl
  rw [hmid, toInt64D_replaceSent] at hcp
  have hs := (coerceSorteo_ok _ _ hcs).2.2.2.1
  rw [hcp] at hs
  exact Except.ok.inj hs

/-- C9 witness: the concrete sample file's premio and sorteo agree. -/
theorem claim_C9_witness :
    processFile 1234 sampleFile = .ok sampleOut ∧
    samplePremioOut.numero_sorteo = sampleOut.sorteo.numero_sorteo :=
  ⟨processFile_sample,
   claim_C9_foreign_key 1234 sampleFile sampleOut processFile_sample samplePremioOut
     (by decide)⟩

/-- The three normalized premio text-ish columns all come from
`replaceSent` applied to the corresponding pre-coercion column. -/
theorem mid_fields (ns : Option String) (r : RawPremio) :
    (replaceSentRow (capitalOverride (splitVendidoPor ns r))).numero_sorteo = replaceSent ns ∧
    (replaceSentRow (capitalOverride (splitVendidoPor ns r))).numero_premiado = replaceSent r.numero_premiado ∧
    (replaceSentRow (capitalOverride (splitVendidoPor ns r))).letras = replaceSent r.letras ∧
    (replaceSentRow (capitalOverride (splitVendidoPor ns r))).monto = replaceSent r.monto := by
  obtain ⟨h1, h2, h3, h4, _, _⟩ := capitalOverride_fields (splitVendidoPor ns r)
  exact ⟨congrArg replaceSent h1, congrArg replaceSent h2,
    congrArg replaceSent h3, congrArg replaceSent h4⟩

/-- C6: the reintegros split always yields exactly three nullable integer
refund columns: an absent raw field gives three nulls, a text with fewer
than three comma-separated parts leaves the missing slots null, and the
split itself is a total function that raises nothing. -/
theorem claim_C6_refund_split (n : Nat) (pf : ParsedFile) (out : FileOut)
    (hok : processFile n pf = .ok out) :
    (pf.header.reintegros = none →
      out.sorteo.reintegro_primer_premio = none ∧
      out.sorteo.reintegro_segundo_premio = none ∧
      out.sorteo.reintegro_tercer_premio = none) ∧
    (∀ s, pf.header.reintegros = some s →
      toInt64E ((splitStr "," s).get? 0) = .ok out.sorteo.reintegro_primer_premio ∧
      toInt64E ((splitStr "," s).get? 1) = .ok out.sorteo.reintegro_segundo_premio ∧
      toInt64E ((splitStr "," s).get? 2) = .ok out.sorteo.reintegro_tercer_premio ∧
      ((splitStr "," s).length < 2 → out.sorteo.reintegro_segundo_premio = none) ∧
      ((splitStr "," s).length < 3 → out.sorteo.reintegro_tercer_premio = none)) := by
  obtain ⟨-, hcs, -⟩ := processFile_ok n pf out hok
  obtain ⟨h1, h2, h3, -⟩ := coerceSorteo_ok _ _ hcs
  constructor
  · intro hr
    rw [hr] at h1 h2 h3
    exact ⟨(Except.ok.inj h1).symm, (Except.ok.inj h2).symm, (Except.ok.inj h3).symm⟩
  · intro s hr
    rw [hr] at h1 h2 h3
    refine ⟨h1, h2, h3, ?_, ?_⟩
    · intro hlen
      have hg : (splitStr "," s).get? 1 = none :=
        List.get?_eq_none.mpr (by omega)
      rw [show (splitReintegros (some s)).2.1 = (splitStr "," s).get? 1 from rfl, hg] at h2
      exact (Except.ok.inj h2).symm
    · intro hlen
      have hg : (splitStr "," s).get? 2 = none :=
        List.get?_eq_none.mpr (by omega)
      rw [show (splitReintegros (some s)).2.2 = (splitStr "," s).get? 2 from rfl, hg] at h3
      exact (Except.ok.inj h3).symm

/-- C6 witness: the sample's "3,9" yields refunds 3, 9 and a null third
slot. -/
theorem claim_C6_witness :
    processFile 1234 sampleFile = .ok sampleOut ∧
    toInt64E ((splitStr "," "3,9").get? 0) = .ok sampleOut.sorteo.reintegro_primer_premio ∧
    sampleOut.sorteo.reintegro_tercer_premio = none :=
  ⟨processFile_sample,
   ((claim_C6_refund_split 1234 sampleFile sampleOut processFile_sample).2 "3,9" rfl).1,
   ((claim_C6_refund_split 1234 sampleFile sampleOut processFile_sample).2 "3,9" rfl).2.2.2.2
     (by decide)⟩

/-- C7: default policy after schema normalization — an unparseable monetary
text yields amount exactly 0.0 (never NA), an unparseable draw-number text
yields 0 (never NA) on both record sets, and the optional identifying
integers (prize numbers, ticket number, refund slots) become null. -/
theorem claim_C7_default_policy (n : Nat) (pf : ParsedFile) (out : FileOut)
    (hok : processFile n pf = .ok out) :
    (∀ i r p, pf.premios.get? i = some r → out.premios.get? i = some p →
      ((∀ s, r.monto = some s → parseNumeric s = none) → p.monto = decZero) ∧
      ((∀ s, r.numero_premiado = some s → parseNumeric s = none) → p.numero_premiado = none)) ∧
    ((∀ s, pf.header.numero_sorteo = some s → parseNumeric s = none) →
      out.sorteo.numero_sorteo = 0 ∧ ∀ p ∈ out.premios, p.numero_sorteo = 0) ∧
    ((∀ s, pf.header.primer_premio = some s → parseNumeric s = none) →
      out.sorteo.primer_premio = none) ∧
    ((∀ s, pf.header.segundo_premio = some s → parseNumeric s = none) →
      out.sorteo.segundo_premio = none) ∧
    ((∀ s, pf.header.tercer_premio = some s → parseNumeric s = none) →
      out.sorteo.tercer_premio = none) ∧
    ((∀ s, (splitReintegros pf.header.reintegros).1 = some s → parseNumeric s = none) →
      out.sorteo.reintegro_primer_premio = none) ∧
    ((∀ s, (splitReintegros pf.header.reintegros).2.1 = some s → parseNumeric s = none) →
      out.sorteo.reintegro_segundo_premio = none) ∧
    ((∀ s, (splitReintegros pf.header.reintegros).2.2 = some s → parseNumeric s = none) →
      out.sorteo.reintegro_tercer_premio = none) := by
  obtain ⟨hmap, hcs, -⟩ := processFile_ok n pf out hok
  obtain ⟨hr1, hr2, hr3, hns, hpp, hsp, htp, -⟩ := coerceSorteo_ok _ _ hcs
  refine ⟨?_, ?_, ?_, ?_, ?_, ?_, ?_, ?_⟩
  · intro i r p hri hpi
    obtain ⟨p', hp', hnp⟩ := mapExcept_ok_get _ _ _ hmap i r hri
    rw [hpi] at hp'
    cases hp'
    obtain ⟨hmns, hmnp, hml, hmm⟩ := mid_fields pf.header.numero_sorteo r
    have hcp := coercePremio_ok _ _ hnp
    constructor
    · intro hfail
      rw [hcp.2.2.1, hmm]
      exact toFloat64_fail _ _ (replaceSent_fail _ hfail)
    · intro hfail
      have := hcp.2.1
      rw [hmnp, toInt64E_fail _ (replaceSent_fail _ hfail)] at this
      exact (Except.ok.inj this).symm
  · intro hfail
    constructor
    · rw [toInt64D_fail _ _ hfail] at hns
      exact (Except.ok.inj hns).symm
    · intro p hp
      obtain ⟨r, -, hnp⟩ := mapExcept_ok_mem _ _ _ hmap p hp
      have hcp := (coercePremio_ok _ _ hnp).1
      rw [(mid_fields pf.header.numero_sorteo r).1, toInt64D_replaceSent,
        toInt64D_fail _ _ hfail] at hcp
      exact (Except.ok.inj hcp).symm
  · intro hfail
    rw [toInt64E_fail _ hfail] at hpp
    exact (Except.ok.inj hpp).symm
  · intro hfail
    rw [toInt64E_fail _ hfail] at hsp
    exact (Except.ok.inj hsp).symm
  · intro hfail
    rw [toInt64E_fail _ hfail] at htp
    exact (Except.ok.inj htp).symm
  · intro hfail
    rw [toInt64E_fail _ hfail] at hr1
    exact (Except.ok.inj hr1).symm
  · intro hfail
    rw [toInt64E_fail _ hfail] at hr2
    exact (Except.ok.inj hr2).symm
  · intro hfail
    rw [toInt64E_fail _ hfail] at hr3
    exact (Except.ok.inj hr3).symm

/-- C7 witness: each unparseable column lands on its documented default. -/
theorem claim_C7_witness :
    processFile 7 badNumsFile = .ok badNumsOut ∧
    badPremioOut.monto = decZero ∧
    badPremioOut.numero_premiado = none ∧
    badNumsOut.sorteo.numero_sorteo = 0 ∧
    badNumsOut.sorteo.primer_premio = none ∧
    badNumsOut.sorteo.reintegro_primer_premio = none := by
  have h : processFile 7 badNumsFile = .ok badNumsOut := by decide
  have hc := claim_C7_default_policy 7 badNumsFile badNumsOut h
  refine ⟨h, ?_, ?_, ?_, ?_, ?_⟩
  · exact (hc.1 0 badRawPremio badPremioOut rfl rfl).1
      (by intro s hs; cases hs; rfl)
  · exact (hc.1 0 badRawPremio badPremioOut rfl rfl).2
      (by intro s hs; cases hs; rfl)
  · exact (hc.2.1 (by intro s hs; cases hs; rfl)).1
  · exact hc.2.2.1 (by intro s hs; cases hs; rfl)
  · exact hc.2.2.2.2.2.1 (by
      intro s hs
      rw [show (splitReintegros badNumsFile.header.reintegros).1 = some "x" from rfl] at hs
      cases hs
      rfl)

/-- C8: after normalization no premios text column holds a placeholder
("N/A", "n/a", ""), and the sorteos record — whose Silver schema has no
text-typed column at all — cannot retain one either, since the integer and
date coercions send every placeholder to null. -/
theorem claim_C8_sentinel_nulling (n : Nat) (pf : ParsedFile) (out : FileOut)
    (hok : processFile n pf = .ok out) :
    (∀ p ∈ out.premios,
      (p.letras ≠ some "N/A" ∧ p.letras ≠ some "n/a" ∧ p.letras ≠ some "") ∧
      (p.vendedor ≠ some "N/A" ∧ p.vendedor ≠ some "n/a" ∧ p.vendedor ≠ some "") ∧
      (p.ciudad ≠ some "N/A" ∧ p.ciudad ≠ some "n/a" ∧ p.ciudad ≠ some "") ∧
      (p.departamento ≠ some "N/A" ∧ p.departamento ≠ some "n/a" ∧ p.departamento ≠ some "")) ∧
    (∀ v : Option String, (v = some "N/A" ∨ v = some "n/a" ∨ v = some "") →
      toInt64E v = .ok none ∧ toInt64D v 0 = .ok 0 ∧ toDate v = none) := by
  obtain ⟨hmap, -, -⟩ := processFile_ok n pf out hok
  constructor
  · intro p hp
    obtain ⟨r, -, hnp⟩ := mapExcept_ok_mem _ _ _ hmap p hp
    have hcp := coercePremio_ok _ _ hnp
    refine ⟨?_, ?_, ?_, ?_⟩
    · rw [hcp.2.2.2.1]
      exact replaceSent_not_placeholder _
    · rw [hcp.2.2.2.2.1]
      exact replaceSent_not_placeholder _
    · rw [hcp.2.2.2.2.2.1]
      exact replaceSent_not_placeholder _
    · rw [hcp.2.2.2.2.2.2]
      exact replaceSent_not_placeholder _
  · intro v hv
    rcases hv with h | h | h <;> subst h <;> exact ⟨rfl, rfl, rfl⟩

/-- C8 witness: the sample premio's text columns carry no placeholder, and
a placeholder reaching an integer column nulls out. -/
theorem claim_C8_witness :
    (samplePremioOut.letras ≠ some "N/A" ∧ samplePremioOut.letras ≠ some "n/a" ∧
      samplePremioOut.letras ≠ some "") ∧
    toInt64E (some "N/A") = .ok none := by
  have hc := claim_C8_sentinel_nulling 1234 sampleFile sampleOut processFile_sample
  exact ⟨(hc.1 samplePremioOut (List.mem_singleton_self _)).1,
    (hc.2 (some "N/A") (Or.inl rfl)).1⟩

theorem silverNums_transformRun (env : Env) (simplePfx silverPfx : String) (d : DS) :
    silverNums d (transformRun env simplePfx silverPfx).1 =
      silverNums d (runFiles env.fetch env.processed simplePfx silverPfx env.rawFiles).1 := rfl

/-- C10: the draw number used for the idempotency skip, the partition path
and both output file names is the one extracted from the raw key's
`sorteo=<digits>/` segment; the records' own `numero_sorteo` comes from the
parsed header and is unaffected by the key; a key without the segment is
skipped with no download, no parse, no output and no error. -/
theorem claim_C10_key_drives_paths (fetch : String → Except TErr ParsedFile)
    (processed : List Nat) (simplePfx silverPfx key : String) :
    (extractSorteo key = none →
      perFile fetch processed simplePfx silverPfx key = ([], none)) ∧
    (∀ n, extractSorteo key = some n → n ∈ processed →
      perFile fetch processed simplePfx silverPfx key = ([], none)) ∧
    (∀ n pf out, extractSorteo key = some n → ¬ n ∈ processed →
      fetch key = .ok pf → processFile n pf = .ok out →
      perFile fetch processed simplePfx silverPfx key =
        (.download key :: uploadEvents simplePfx silverPfx n out, none)) ∧
    (∀ n n' pf out, processFile n pf = .ok out → processFile n' pf = .ok out) ∧
    (∀ n pf out, processFile n pf = .ok out →
      toInt64D pf.header.numero_sorteo 0 = .ok out.sorteo.numero_sorteo) := by
  refine ⟨?_, ?_, ?_, ?_, ?_⟩
  · intro hx
    simp [perFile, hx]
  · intro n hx hp
    simp [perFile, hx, hp]
  · intro n pf out hx hp hf hpr
    simp [perFile, hx, hp, hf, hpr]
  · intro n n' pf out h
    obtain ⟨hmap, hcs, d, hd, hy⟩ := processFile_ok n pf out h
    have : processFile n' pf = .ok ⟨out.sorteo, out.premios, d.year⟩ := by
      simp [processFile, hmap, hcs, hd]
    rw [this, ← hy]
  · intro n pf out h
    exact (coerceSorteo_ok _ _ (processFile_ok n pf out h).2.1).2.2.2.1

/-- C10 witness: a key without a `sorteo=` segment is skipped silently, and
a key whose segment (999) disagrees with the header's 1234 uploads under
999 while the records carry 1234. -/
theorem claim_C10_witness :
    extractSorteo "raw/year=2024/notes.txt" = none ∧
    perFile c10Fetch [] "proc/" "silver/" "raw/year=2024/notes.txt" = ([], none) ∧
    extractSorteo "raw/year=2024/sorteo=999/f.txt" = some 999 ∧
    perFile c10Fetch [] "proc/" "silver/" "raw/year=2024/sorteo=999/f.txt" =
      (.download "raw/year=2024/sorteo=999/f.txt" ::
        uploadEvents "proc/" "silver/" 999 sampleOut, none) ∧
    sampleOut.sorteo.numero_sorteo = 1234 := by
  refine ⟨by decide, ?_, by decide, ?_, by decide⟩
  · exact (claim_C10_key_drives_paths c10Fetch [] "proc/" "silver/"
      "raw/year=2024/notes.txt").1 (by decide)
  · exact (claim_C10_key_drives_paths c10Fetch [] "proc/" "silver/"
      "raw/year=2024/sorteo=999/f.txt").2.2.1 999 sampleFile sampleOut
      (by decide) (by decide) rfl processFile_sample

/-- C4: the canonical processed-set listing happens exactly once per run;
a raw file whose key-extracted draw number is already in the processed set
is skipped before any download; and a second run whose processed set covers
everything the first run uploaded produces no silver partition already
produced by the first run. -/
theorem claim_C4_idempotence (env : Env) (simplePfx silverPfx : String) :
    countListProcessed (transformRun env simplePfx silverPfx).1 = 1 ∧
    (∀ key n, extractSorteo key = some n → n ∈ env.processed →
      perFile env.fetch env.processed simplePfx silverPfx key = ([], none)) ∧
    (∀ env2 : Env, env2.rawFiles = env.rawFiles →
      (∀ m, m ∈ silverNums .sorteos (transformRun env simplePfx silverPfx).1 →
        m ∈ env2.processed) →
      ∀ m, m ∈ silverNums .sorteos (transformRun env2 simplePfx silverPfx).1 →
        ¬ m ∈ silverNums .sorteos (transformRun env simplePfx silverPfx).1) := by
  refine ⟨?_, ?_, ?_⟩
  · have h0 := countListProcessed_runFiles env.fetch env.processed simplePfx silverPfx env.rawFiles
    unfold countListProcessed at h0 ⊢
    simp [transformRun, List.countP_cons, h0]
  · intro key n hx hp
    simp [perFile, hx, hp]
  · intro env2 _ hsub m hm2 hm1
    rw [silverNums_transformRun] at hm2
    exact silverNums_runFiles_not_processed env2.fetch env2.processed simplePfx silverPfx
      env2.rawFiles .sorteos m hm2 (hsub m hm1)

/-- C4 witness: with draw 5 already in the processed set, its file is
skipped with no events, and the listing is counted once. -/
theorem claim_C4_witness :
    countListProcessed (transformRun c4Env "proc/" "silver/").1 = 1 ∧
    perFile c4Env.fetch c4Env.processed "proc/" "silver/" "raw/year=2024/sorteo=5/a.txt" =
      ([], none) :=
  ⟨(claim_C4_idempotence c4Env "proc/" "silver/").1,
   (claim_C4_idempotence c4Env "proc/" "silver/").2.1 "raw/year=2024/sorteo=5/a.txt" 5
     (by decide) (by decide)⟩

/-- C1 counterexample: the first file's all-dates-invalid failure makes the
whole run stop — the second file, which a run without the first file would
download and process, is never even downloaded.  This contradicts the
claim that a failure aborts only the failing file's processing. -/
theorem claim_C1_counterexample :
    (transformRun c1Env "proc/" "silver/").2 = some (.invalidFecha 1) ∧
    hasDownload "raw/year=2024/sorteo=2/b.txt" (transformRun c1Env "proc/" "silver/").1 = false ∧
    hasDownload "raw/year=2024/sorteo=2/b.txt"
      (transformRun c1EnvSecondOnly "proc/" "silver/").1 = true := by
  exact ⟨by decide, by decide, by decide⟩

/-- C1 amended: there is no per-file error containment — the first failing
file, whether it fails at download, parse, normalization or at one of its
four upload calls (spec §7 StorageError), terminates the run: earlier
files are processed normally, the failing file contributes its download
and exactly the uploads completed before the failure (always an initial
segment of its four uploads), and no later discovered file is processed at
all. -/
theorem claim_C1_amended_abort (fetch : String → Except TErr ParsedFile)
    (upload : UploadOracle) (processed : List Nat)
    (simplePfx silverPfx : String) (l1 : List String) (f : String) (l2 : List String) (e : TErr)
    (h1 : ∀ k ∈ l1, (perFileU fetch upload processed simplePfx silverPfx k).2 = none)
    (h2 : (perFileU fetch upload processed simplePfx silverPfx f).2 = some e) :
    runFilesU fetch upload processed simplePfx silverPfx (l1 ++ f :: l2) =
      ((l1.map (fun k => (perFileU fetch upload processed simplePfx silverPfx k).1)).flatten ++
        (perFileU fetch upload processed simplePfx silverPfx f).1, some e) ∧
    (∀ n out, (tryUploads upload (uploadEvents simplePfx silverPfx n out)).1 <+:
      uploadEvents simplePfx silverPfx n out) := by
  constructor
  · induction l1 with
    | nil =>
      rw [List.nil_append, runFilesU_cons, h2]
      simp
    | cons k ks ih =>
      have hk := h1 k (List.mem_cons_self k ks)
      rw [List.cons_append, runFilesU_cons, hk]
      simp only
      rw [ih (fun k' hk' => h1 k' (List.mem_cons_of_mem k hk'))]
      simp [List.flatten, List.append_assoc]
  · intro n out
    exact tryUploads_initialSegment upload _

/-- C1 amended witness: a StorageError at the fourth upload call of the
first file aborts the run — the file keeps its three completed uploads and
the second discovered file is never processed. -/
theorem claim_C1_amended_witness :
    runFilesU c1FetchOk c1UploadFail [] "proc/" "silver/"
        ([] ++ "raw/year=2024/sorteo=1/a.txt" :: ["raw/year=2024/sorteo=2/b.txt"]) =
      ((([] : List String).map
          (fun k => (perFileU c1FetchOk c1UploadFail [] "proc/" "silver/" k).1)).flatten ++
        (perFileU c1FetchOk c1UploadFail [] "proc/" "silver/" "raw/year=2024/sorteo=1/a.txt").1,
       some (.storage "silver/premios/year=2024/sorteo=1/premios.parquet")) :=
  (claim_C1_amended_abort c1FetchOk c1UploadFail [] "proc/" "silver/" []
    "raw/year=2024/sorteo=1/a.txt" ["raw/year=2024/sorteo=2/b.txt"]
    (.storage "silver/premios/year=2024/sorteo=1/premios.parquet")
    (by intro k hk; cases hk) (by decide)).1

/-- C2 counterexample: between the two canonical uploads of one file there
is an observable trace prefix whose canonical output holds the sorteos
object of draw 5 without its premios object, contradicting "at no
observable point". -/
theorem claim_C2_counterexample :
    List.IsPrefix ((transformRun c2Env "proc/" "silver/").1.take 6)
      (transformRun c2Env "proc/" "silver/").1 ∧
    silverNums .sorteos ((transformRun c2Env "proc/" "silver/").1.take 6) = [5] ∧
    silverNums .premios ((transformRun c2Env "proc/" "silver/").1.take 6) = [] := by
  exact ⟨List.take_prefix _ _, by decide, by decide⟩

/-- A StorageError at the canonical premios upload (transformer.py:241)
leaves the aborted run's canonical output holding a sorteos object with no
matching premios object — permanently, since nothing retries.  This is the
exposure the amended C2 carves out of the pairing guarantee. -/
theorem storage_failure_leaves_half_written :
    silverNums .sorteos (runFilesU c1FetchOk c1UploadFail [] "proc/" "silver/"
      ["raw/year=2024/sorteo=1/a.txt"]).1 = [1] ∧
    silverNums .premios (runFilesU c1FetchOk c1UploadFail [] "proc/" "silver/"
      ["raw/year=2024/sorteo=1/a.txt"]).1 = [] := by
  exact ⟨by decide, by decide⟩

/-- C2 amended: no object is uploaded for a file unless its download,
parse and normalization of both record sets fully succeeded (even when
upload calls can fail); and whenever the store collaborator's upload calls
all succeed, the canonical sorteos and premios uploads of a complete run
trace carry exactly the same draw numbers.  The pairing guarantee does not
extend further: it is transiently incomplete between a file's two
sequential canonical uploads, and a StorageError at a canonical upload
call aborts the run and can leave a sorteos object permanently without its
premios object. -/
theorem claim_C2_no_partial_write (fetch : String → Except TErr ParsedFile)
    (upload : UploadOracle) (processed : List Nat) (simplePfx silverPfx key : String) :
    (∀ b k d m c,
      Event.upload b k d m c ∈ (perFileU fetch upload processed simplePfx silverPfx key).1 →
      ∃ pf, fetch key = .ok pf ∧ processFile m pf = .ok c ∧ extractSorteo key = some m ∧
        ¬ m ∈ processed) ∧
    (∀ env : EnvU, (∀ b k, env.upload b k = .ok ()) →
      silverNums .sorteos (transformRunU env simplePfx silverPfx).1 =
        silverNums .premios (transformRunU env simplePfx silverPfx).1) := by
  constructor
  · intro b k d m c hmem
    rcases perFileU_cases fetch upload processed simplePfx silverPfx key with
      h | ⟨e, h⟩ | ⟨n, pf, out, hx, hp, hf, hpr, h⟩ <;> rw [h] at hmem
    · simp at hmem
    · simp at hmem
    · have hmem' : Event.upload b k d m c ∈
          (tryUploads upload (uploadEvents simplePfx silverPfx n out)).1 := by
        cases hmem with
        | tail _ hm => exact hm
      have hsub := (tryUploads_initialSegment upload (uploadEvents simplePfx silverPfx n out)).subset hmem'
      simp [uploadEvents] at hsub
      rcases hsub with ⟨-, -, -, rfl, rfl⟩ | ⟨⟨-, -, -, rfl, rfl⟩ | ⟨-, -, -, rfl, rfl⟩ | ⟨-, -, -, rfl, rfl⟩⟩ <;>
        exact ⟨pf, hf, hpr, hx, hp⟩
  · intro env hup
    rw [silverNums_transformRunU, silverNums_transformRunU,
      runFilesU_allOk env.fetch env.upload hup env.processed simplePfx silverPfx env.rawFiles]
    exact silverNums_runFiles_eq env.fetch env.processed simplePfx silverPfx env.rawFiles

/-- C2 amended witness: the sample run's canonical sorteos upload did come
after a fully successful normalization. -/
theorem claim_C2_witness :
    ∃ pf, c2Env.fetch "raw/year=2024/sorteo=5/a.txt" = .ok pf ∧
      processFile 5 pf = .ok sampleOut ∧
      extractSorteo "raw/year=2024/sorteo=5/a.txt" = some 5 ∧
      ¬ 5 ∈ c2Env.processed :=
  (claim_C2_no_partial_write c2Env.fetch c2UploadOk c2Env.processed "proc/" "silver/"
      "raw/year=2024/sorteo=5/a.txt").1 .partitioned
    "silver/sorteos/year=2024/sorteo=5/sorteos.parquet" .sorteos 5 sampleOut (by decide)

end Transformer
